import Mathlib

/-!
Verification of the block generation and resampling engine of the
`tsbootstrap` repository (files `src/bootstrap.py` and
`src/ts_bs/utils/validate.py`), against its natural-language specification.

Conventions of the embedding:
* numpy integer arrays become `List Int` or `List Nat`;
* a 2-D data array becomes `List (List ℚ)` (a list of rows);
* the numpy random generator becomes an explicit draw stream
  `stream : Nat → Nat` together with a position counter, so that
  "consuming a draw" is advancing the position;
* fallible Python code (raising `ValueError` / `TypeError`) becomes
  `Except String _`.
-/

namespace TsBs

/-! ## Block length sampling and block generation

`BlockLengthSampler` and `BlockGenerator` live in
`utils/block_length_sampler.py` and `src/block_generator.py`, which are not
part of the provided sources; they are modelled from the specification. -/

/-- Modelled from the spec: `BlockLengthSampler.sample_length` ("sample_length()
-> integer ≥ 1"; "the raw continuous draw is rounded to the nearest integer and
floored at 1 (or at the configured min_block_length if larger)").  The raw
integer draw is abstracted as an arbitrary natural number; the flooring at
`max min_block_length 1` is kept. -/
def sampleLength (minBlockLength : Nat) (raw : Nat) : Nat :=
  max raw (max minBlockLength 1)

/-- Modelled from the spec: the loop body of `BlockGenerator.generate_blocks`
in `src/block_generator.py` (absent from the provided sources), for
`overlap_flag = False` and `wrap_around_flag = False`: "maintain a cursor
starting at 0.  Loop: draw a length from LengthSampler, clip to not exceed the
remaining unallocated span ...; emit the block [cursor, cursor+length); advance
cursor by length.  Terminate when cursor reaches N.  Edge policy: if the final
segment remaining before termination would be shorter than min_block_length, it
is merged into the previous block (extending it)."  The merge is realised by
extending the block being emitted to absorb an undersized trailing remainder:
`stepLen` computes the length of the block emitted at `cursor` from the raw
draw `raw`. -/
def stepLen (minBlockLength N cursor raw : Nat) : Nat :=
  let clipped := min (sampleLength minBlockLength raw) (N - cursor)
  if N - cursor - clipped < minBlockLength then N - cursor else clipped

/-- Modelled from the spec: the iterated loop of
`BlockGenerator.generate_blocks` (see `stepLen`).  `fuel` bounds the number of
loop iterations; `fuel = N` always suffices because every iteration advances
the cursor by at least one. -/
def generateBlocksAux (lengths : Nat → Nat) (minBlockLength N : Nat) :
    Nat → Nat → Nat → List (List Nat)
  | 0, _, _ => []
  | fuel + 1, cursor, i =>
    if cursor < N then
      let len := stepLen minBlockLength N cursor (lengths i)
      List.range' cursor len ::
        generateBlocksAux lengths minBlockLength N fuel (cursor + len) (i + 1)
    else []

/-- Modelled from the spec: `BlockGenerator.generate_blocks` with
`overlap_flag = False`, `wrap_around_flag = False`, carving the index range
`[0, N)` into consecutive blocks.  `lengths` is the stream of raw block-length
draws consumed by the length sampler. -/
def generateBlocks (lengths : Nat → Nat) (minBlockLength N : Nat) : List (List Nat) :=
  generateBlocksAux lengths minBlockLength N N 0 0

example : generateBlocks (fun _ => 2) 1 3 = [[0, 1], [2]] := by decide

example : generateBlocks (fun _ => 3) 1 10 = [[0, 1, 2], [3, 4, 5], [6, 7, 8], [9]] := by
  decide

example : generateBlocks (fun _ => 3) 2 10 = [[0, 1, 2], [3, 4, 5], [6, 7, 8, 9]] := by
  decide

lemma stepLen_pos (minBlockLength N cursor raw : Nat) (h : cursor < N) :
    1 ≤ stepLen minBlockLength N cursor raw := by
  simp only [stepLen, sampleLength]
  split <;> omega

lemma stepLen_le (minBlockLength N cursor raw : Nat) :
    stepLen minBlockLength N cursor raw ≤ N - cursor := by
  simp only [stepLen, sampleLength]
  split <;> omega

lemma generateBlocksAux_flatten (lengths : Nat → Nat) (minBlockLength N : Nat) :
    ∀ fuel cursor i, N - cursor ≤ fuel →
      (generateBlocksAux lengths minBlockLength N fuel cursor i).flatten =
        List.range' cursor (N - cursor) := by
  intro fuel
  induction fuel with
  | zero =>
    intro cursor i h
    have : N - cursor = 0 := Nat.le_zero.mp h
    simp [generateBlocksAux, this]
  | succ fuel ih =>
    intro cursor i h
    by_cases hc : cursor < N
    · have hpos := stepLen_pos minBlockLength N cursor (lengths i) hc
      have hle := stepLen_le minBlockLength N cursor (lengths i)
      simp only [generateBlocksAux, if_pos hc, List.flatten_cons]
      rw [ih (cursor + stepLen minBlockLength N cursor (lengths i)) (i + 1) (by omega)]
      have := List.range'_append cursor (stepLen minBlockLength N cursor (lengths i))
        (N - (cursor + stepLen minBlockLength N cursor (lengths i))) 1
      simp only [Nat.one_mul] at this
      rw [this]
      congr 1
      omega
    · have : N - cursor = 0 := by omega
      simp [generateBlocksAux, if_neg hc, this]

lemma generateBlocksAux_lower_bound (lengths : Nat → Nat) (minBlockLength N : Nat) :
    ∀ fuel cursor i b, b ∈ generateBlocksAux lengths minBlockLength N fuel cursor i →
      ∀ x ∈ b, cursor ≤ x := by
  intro fuel
  induction fuel with
  | zero => intro cursor i b hb; simp [generateBlocksAux] at hb
  | succ fuel ih =>
    intro cursor i b hb x hx
    by_cases hc : cursor < N
    · simp only [generateBlocksAux, if_pos hc, List.mem_cons] at hb
      rcases hb with rfl | hb
      · exact (List.mem_range'_1.mp hx).1
      · have := ih (cursor + stepLen minBlockLength N cursor (lengths i)) (i + 1) b hb x hx
        omega
    · simp [generateBlocksAux, if_neg hc] at hb

lemma generateBlocksAux_pairwise_disjoint (lengths : Nat → Nat) (minBlockLength N : Nat) :
    ∀ fuel cursor i,
      List.Pairwise (fun b₁ b₂ => ∀ x ∈ b₁, x ∉ b₂)
        (generateBlocksAux lengths minBlockLength N fuel cursor i) := by
  intro fuel
  induction fuel with
  | zero => intro cursor i; simp [generateBlocksAux]
  | succ fuel ih =>
    intro cursor i
    by_cases hc : cursor < N
    · simp only [generateBlocksAux, if_pos hc]
      refine List.Pairwise.cons ?_ (ih _ _)
      intro b hb x hx hxb
      have h1 : x < cursor + stepLen minBlockLength N cursor (lengths i) :=
        (List.mem_range'_1.mp hx).2
      have h2 := generateBlocksAux_lower_bound lengths minBlockLength N fuel
        (cursor + stepLen minBlockLength N cursor (lengths i)) (i + 1) b hb x hxb
      omega
    · simp [generateBlocksAux, if_neg hc]

/-- C1: for every input length `N ≥ 1` and every configuration (arbitrary
stream of raw block-length draws, arbitrary `min_block_length`) with
`overlap_flag = False` and `wrap_around_flag = False`, the blocks returned by
`generate_blocks` have pairwise disjoint index sets whose union is exactly
the index set of the series, every index `x < N`. -/
theorem generate_blocks_disjoint_cover (lengths : Nat → Nat)
    (minBlockLength N : Nat) (hN : 1 ≤ N) :
    List.Pairwise (fun b₁ b₂ => ∀ x ∈ b₁, x ∉ b₂)
        (generateBlocks lengths minBlockLength N) ∧
      ∀ x : Nat, (∃ b ∈ generateBlocks lengths minBlockLength N, x ∈ b) ↔ x < N := by
  constructor
  · exact generateBlocksAux_pairwise_disjoint lengths minBlockLength N N 0 0
  · intro x
    have hfl := generateBlocksAux_flatten lengths minBlockLength N N 0 0 (by omega)
    rw [← List.mem_flatten]
    unfold generateBlocks
    rw [hfl]
    simp [List.mem_range'_1]

theorem generate_blocks_disjoint_cover_witness :
    1 ≤ 3 ∧
      (List.Pairwise (fun b₁ b₂ => ∀ x ∈ b₁, x ∉ b₂)
          (generateBlocks (fun _ => 2) 1 3) ∧
        ∀ x : Nat, (∃ b ∈ generateBlocks (fun _ => 2) 1 3, x ∈ b) ↔ x < 3) :=
  ⟨by decide, generate_blocks_disjoint_cover (fun _ => 2) 1 3 (by decide)⟩

/-! ## Block resampling

`BlockResampler` lives in `src/block_resampler.py`, which is not part of the
provided sources; it is modelled from the specification. -/

/-- Modelled from the spec: the clipping of tapering weights in
`BlockResampler` ("clip elementwise to a floor of 0.1"). -/
def clipTaper (w : ℚ) : ℚ := max w (1 / 10)

/-- Modelled from the spec: the draw loop (Step 3) of
`BlockResampler.resample_block_indices_and_data` in `src/block_resampler.py`
(absent from the provided sources): "repeatedly sample a block index from the
categorical distribution (with replacement) using the random stream,
accumulate its (index array, tapered data) pair, and track cumulative length.
Stop once cumulative length ≥ N; truncate the final drawn block (both its
index array and data) to fit exactly N total rows."  `choices` abstracts the
stream of categorical draws (reduced modulo the number of blocks so that every
draw selects an existing block), `taper` the tapering weight at each position
within a block, and `needed` the number of rows still missing; truncating every
drawn block to `needed` rows only affects the final one.  `fuel = N` always
suffices because every drawn block contributes at least one row. -/
def resampleAux (blocks : List (List Nat)) (X : List (List ℚ))
    (choices : Nat → Nat) (taper : Nat → ℚ) :
    Nat → Nat → Nat → List (List Nat) × List (List (List ℚ))
  | 0, _, _ => ([], [])
  | fuel + 1, needed, i =>
    if needed = 0 then ([], [])
    else
      let b := blocks.getD (choices i % blocks.length) []
      let bTrunc := b.take needed
      let data := bTrunc.mapIdx
        (fun j idx => (X.getD idx []).map (fun v => v * clipTaper (taper j)))
      let rest := resampleAux blocks X choices taper fuel (needed - bTrunc.length) (i + 1)
      (bTrunc :: rest.1, data :: rest.2)

/-- Modelled from the spec: `BlockResampler.resample_block_indices_and_data`,
returning the list of resampled index arrays and the list of corresponding
tapered data arrays, with `N = X.length` total rows. -/
def resampleBlockIndicesAndData (blocks : List (List Nat)) (X : List (List ℚ))
    (choices : Nat → Nat) (taper : Nat → ℚ) :
    List (List Nat) × List (List (List ℚ)) :=
  resampleAux blocks X choices taper X.length X.length 0

lemma chosenBlock_mem (blocks : List (List Nat)) (k : Nat) (hne : blocks ≠ []) :
    blocks.getD (k % blocks.length) [] ∈ blocks := by
  have hlen : 0 < blocks.length := List.length_pos.mpr hne
  have hmod : k % blocks.length < blocks.length := Nat.mod_lt _ hlen
  rw [List.getD_eq_getElem blocks [] hmod]
  exact List.getElem_mem hmod

lemma resampleAux_index_length_sum (blocks : List (List Nat)) (X : List (List ℚ))
    (choices : Nat → Nat) (taper : Nat → ℚ)
    (hne : blocks ≠ []) (hbl : ∀ b ∈ blocks, b ≠ []) :
    ∀ fuel needed i, needed ≤ fuel →
      (((resampleAux blocks X choices taper fuel needed i).1).map List.length).sum
        = needed := by
  intro fuel
  induction fuel with
  | zero =>
    intro needed i h
    have : needed = 0 := Nat.le_zero.mp h
    simp [resampleAux, this]
  | succ fuel ih =>
    intro needed i h
    by_cases h0 : needed = 0
    · simp [resampleAux, h0]
    · have hb := chosenBlock_mem blocks (choices i) hne
      have hbne := hbl _ hb
      have hblen : 1 ≤ (blocks.getD (choices i % blocks.length) []).length :=
        List.length_pos.mpr hbne
      simp only [resampleAux, if_neg h0, List.map_cons, List.sum_cons]
      rw [ih (needed - (((blocks.getD (choices i % blocks.length) []).take needed).length))
            (i + 1) (by simp only [List.length_take]; omega)]
      simp only [List.length_take]
      omega

lemma resampleAux_data_lengths (blocks : List (List Nat)) (X : List (List ℚ))
    (choices : Nat → Nat) (taper : Nat → ℚ) :
    ∀ fuel needed i,
      ((resampleAux blocks X choices taper fuel needed i).2).map List.length =
        ((resampleAux blocks X choices taper fuel needed i).1).map List.length := by
  intro fuel
  induction fuel with
  | zero => intro needed i; simp [resampleAux]
  | succ fuel ih =>
    intro needed i
    by_cases h0 : needed = 0
    · simp [resampleAux, h0]
    · simp only [resampleAux, if_neg h0, List.map_cons]
      rw [ih]
      simp

lemma resampleAux_row_lengths (blocks : List (List Nat)) (X : List (List ℚ))
    (choices : Nat → Nat) (taper : Nat → ℚ) (M : Nat)
    (hidx : ∀ b ∈ blocks, ∀ idx ∈ b, idx < X.length)
    (hcols : ∀ row ∈ X, row.length = M) :
    ∀ fuel needed i,
      ∀ row ∈ ((resampleAux blocks X choices taper fuel needed i).2).flatten,
        row.length = M := by
  intro fuel
  induction fuel with
  | zero => intro needed i row hrow; simp [resampleAux] at hrow
  | succ fuel ih =>
    intro needed i row hrow
    by_cases h0 : needed = 0
    · simp [resampleAux, h0] at hrow
    · simp only [resampleAux, if_neg h0, List.flatten_cons, List.mem_append] at hrow
      rcases hrow with hrow | hrow
      · rw [List.mem_mapIdx] at hrow
        obtain ⟨j, hj, hrow⟩ := hrow
        by_cases hne : blocks = []
        · subst hne
          simp at hj
        · have hb := chosenBlock_mem blocks (choices i) hne
          have hmem : ((blocks.getD (choices i % blocks.length) []).take needed)[j] ∈
              blocks.getD (choices i % blocks.length) [] :=
            List.mem_of_mem_take (List.getElem_mem hj)
          have hlt := hidx _ hb _ hmem
          rw [← hrow, List.getD_eq_getElem X [] hlt, List.length_map]
          exact hcols _ (List.getElem_mem hlt)
      · exact ih _ (i + 1) row hrow

/-- C2: for every valid configuration — a non-empty block partition of
non-empty blocks with indices into the source array, and a source array with
`N` rows of `M` columns each — `resample_block_indices_and_data` returns index
arrays whose concatenation has length exactly `N` and data arrays whose
concatenation has exactly `N` rows, each of `M` columns. -/
theorem resample_concat_length (blocks : List (List Nat)) (X : List (List ℚ))
    (choices : Nat → Nat) (taper : Nat → ℚ) (M : Nat)
    (hne : blocks ≠ []) (hbl : ∀ b ∈ blocks, b ≠ [])
    (hidx : ∀ b ∈ blocks, ∀ idx ∈ b, idx < X.length)
    (hcols : ∀ row ∈ X, row.length = M) :
    (resampleBlockIndicesAndData blocks X choices taper).1.flatten.length = X.length ∧
      (resampleBlockIndicesAndData blocks X choices taper).2.flatten.length = X.length ∧
      ∀ row ∈ (resampleBlockIndicesAndData blocks X choices taper).2.flatten,
        row.length = M := by
  have hsum := resampleAux_index_length_sum blocks X choices taper hne hbl
    X.length X.length 0 (Nat.le_refl _)
  refine ⟨?_, ?_, ?_⟩
  · rw [List.length_flatten]
    exact hsum
  · rw [List.length_flatten]
    unfold resampleBlockIndicesAndData
    rw [resampleAux_data_lengths]
    exact hsum
  · exact resampleAux_row_lengths blocks X choices taper M hidx hcols X.length X.length 0

theorem resample_concat_length_witness :
    (([[0, 1], [2]] : List (List Nat)) ≠ [] ∧
        (∀ b ∈ ([[0, 1], [2]] : List (List Nat)), b ≠ []) ∧
        (∀ b ∈ ([[0, 1], [2]] : List (List Nat)), ∀ idx ∈ b,
          idx < ([[1], [2], [3]] : List (List ℚ)).length) ∧
        ∀ row ∈ ([[1], [2], [3]] : List (List ℚ)), row.length = 1) ∧
      (resampleBlockIndicesAndData [[0, 1], [2]] [[1], [2], [3]]
            (fun _ => 0) (fun _ => 1)).1.flatten.length =
          ([[1], [2], [3]] : List (List ℚ)).length ∧
        (resampleBlockIndicesAndData [[0, 1], [2]] [[1], [2], [3]]
            (fun _ => 0) (fun _ => 1)).2.flatten.length =
          ([[1], [2], [3]] : List (List ℚ)).length ∧
        ∀ row ∈ (resampleBlockIndicesAndData [[0, 1], [2]] [[1], [2], [3]]
            (fun _ => 0) (fun _ => 1)).2.flatten, row.length = 1 :=
  ⟨⟨by decide, by decide, by decide, by decide⟩,
    resample_concat_length [[0, 1], [2]] [[1], [2], [3]] (fun _ => 0) (fun _ => 1) 1
      (by decide) (by decide) (by decide) (by decide)⟩

/-! ## Average block length defaulting

Embeds the defaulting expression of `BlockBootstrap._generate_blocks` in
`src/bootstrap.py`:
`self.block_length if self.block_length is not None else int(np.sqrt(X.shape[0]))`. -/

/-- Embedding of the average block length handed to `BlockLengthSampler` by
`BlockBootstrap._generate_blocks` (`src/bootstrap.py`): the configured
`block_length` when set, otherwise `int(np.sqrt(N))`.  Python's `int` truncates
the floating-point square root towards zero, so the default is the floor of the
square root, which on naturals is `Nat.sqrt`. -/
def resolvedAvgBlockLength : Option Nat → Nat → Nat
  | some b, _ => b
  | none, n => Nat.sqrt n

/-- The specification's words for the default: `round(sqrt(N))`, the integer
nearest to the square root.  With `s = Nat.sqrt n` this is `s + 1` exactly when
`sqrt n ≥ s + 1/2`, i.e. when `(2*s+1)^2 ≤ 4*n`; no ties arise because
`(2*s+1)^2` is odd. -/
def roundSqrt (n : Nat) : Nat :=
  if (2 * Nat.sqrt n + 1) ^ 2 ≤ 4 * n then Nat.sqrt n + 1 else Nat.sqrt n

/-- C3 counterexample: for an input with `N = 8` rows and `block_length = None`,
the code uses `int(np.sqrt(8)) = 2` as the average block length, while the
claimed `round(sqrt(8))` is `3`. -/
theorem default_block_length_not_round_sqrt :
    resolvedAvgBlockLength none 8 = 2 ∧ roundSqrt 8 = 3 ∧
      resolvedAvgBlockLength none 8 ≠ roundSqrt 8 := by
  have h : Nat.sqrt 8 = 2 := by norm_num
  simp [resolvedAvgBlockLength, roundSqrt, h]

/-- C3 (amended): whenever the caller leaves `block_length` unset, block
generation uses the floor of the square root of `N` as the average block
length: the default `d` satisfies `d^2 ≤ N < (d+1)^2`. -/
theorem default_block_length_is_floor_sqrt (n : Nat) :
    resolvedAvgBlockLength none n ^ 2 ≤ n ∧
      n < (resolvedAvgBlockLength none n + 1) ^ 2 :=
  ⟨Nat.sqrt_le' n, Nat.lt_succ_sqrt' n⟩

/-! ## Weight validation

Embeds `validate_weights` from `src/ts_bs/utils/validate.py`.  A numpy scalar
is modelled as a real part, an imaginary part and a finiteness flag; a numpy
array as its shape together with the flat list of its entries. -/

/-- A numpy scalar: rational real and imaginary parts plus a finiteness flag
(covering `nan`, `inf` and `-inf`). -/
structure PyScalar where
  re : ℚ
  im : ℚ
  finite : Bool
  deriving DecidableEq

/-- A numpy array: its shape (`ndim = shape.length`) and the flat list of its
entries (`size = shape.prod`). -/
structure NpArray where
  shape : List Nat
  values : List PyScalar
  deriving DecidableEq

/-- Well-formedness of the model of a numpy array: the number of entries is
the product of the dimensions. -/
def NpArray.wf (w : NpArray) : Prop := w.values.length = w.shape.prod

instance (w : NpArray) : Decidable w.wf := by unfold NpArray.wf; infer_instance

/-- Embedding of `validate_weights` (`src/ts_bs/utils/validate.py`, lines
289-331), with its checks in source order: any non-finite entry, then any
negative entry (`weights < 0` reads the real part), then any entry with a
non-zero imaginary part (`np.iscomplex`), then all entries zero
(`np.all(weights == 0)`, vacuously true for an empty array), then a 2-D shape
with a second dimension other than 1 or more than two dimensions. -/
def validate_weights (w : NpArray) : Except String Unit :=
  if ¬ ∀ v ∈ w.values, v.finite then
    .error "non-finite values"
  else if ∃ v ∈ w.values, v.re < 0 then
    .error "negative values"
  else if ∃ v ∈ w.values, v.im ≠ 0 then
    .error "complex values"
  else if ∀ v ∈ w.values, v.re = 0 ∧ v.im = 0 then
    .error "all zero values"
  else if (w.shape.length = 2 ∧ w.shape.getD 1 0 ≠ 1) ∨ w.shape.length > 2 then
    .error "2D array with more than one column"
  else
    .ok ()

/-- A finite positive real scalar. -/
def posScalar (q : ℚ) : PyScalar := ⟨q, 0, true⟩

instance {ε α : Type} [DecidableEq ε] [DecidableEq α] : DecidableEq (Except ε α) :=
  fun a b =>
    match a, b with
    | .ok x, .ok y =>
      if h : x = y then isTrue (by rw [h]) else isFalse (fun hc => h (by injection hc))
    | .error x, .error y =>
      if h : x = y then isTrue (by rw [h]) else isFalse (fun hc => h (by injection hc))
    | .ok _, .error _ => isFalse (fun hc => nomatch hc)
    | .error _, .ok _ => isFalse (fun hc => nomatch hc)

example : validate_weights ⟨[3], [posScalar (-1), posScalar 2, posScalar 3]⟩ =
    .error "negative values" := by decide

example : validate_weights ⟨[3], [posScalar 1, posScalar 2, posScalar 3]⟩ = .ok () := by
  decide

/-- A 3-D numpy array of two ones, shape (1, 1, 2). -/
def onesArr3d : NpArray := ⟨[1, 1, 2], [posScalar 1, posScalar 1]⟩

/-- C4 counterexample: a 3-D array of ones is finite, non-negative, real, not
all zero, and is not a 2-D array with more than one column, yet
`validate_weights` raises (its shape check also rejects every array of more
than two dimensions).  This refutes the claim's "exactly when". -/
theorem validate_weights_rejects_3d_ones :
    onesArr3d.wf ∧
      validate_weights onesArr3d ≠ .ok () ∧
      (∀ v ∈ onesArr3d.values, v.finite) ∧
      (∀ v ∈ onesArr3d.values, ¬ v.re < 0) ∧
      (∀ v ∈ onesArr3d.values, v.im = 0) ∧
      ¬ (∀ v ∈ onesArr3d.values, v.re = 0 ∧ v.im = 0) ∧
      ¬ (onesArr3d.shape.length = 2 ∧ onesArr3d.shape.getD 1 0 > 1) := by
  decide

/-- C4 (amended): `validate_weights` raises exactly when the weight array
contains a non-finite value, a negative value, a complex value, or all zeros
(vacuously so for an empty array), or has two dimensions with a second
dimension other than one, or has more than two dimensions; in particular the
negative weight array `[-1, 2, 3]` is rejected (witness). -/
theorem validate_weights_error_iff (w : NpArray) (_hwf : w.wf) :
    validate_weights w ≠ .ok () ↔
      ((¬ ∀ v ∈ w.values, v.finite) ∨
        (∃ v ∈ w.values, v.re < 0) ∨
        (∃ v ∈ w.values, v.im ≠ 0) ∨
        (∀ v ∈ w.values, v.re = 0 ∧ v.im = 0) ∨
        (w.shape.length = 2 ∧ w.shape.getD 1 0 ≠ 1) ∨
        w.shape.length > 2) := by
  clear _hwf
  unfold validate_weights
  rcases Classical.em (∀ v ∈ w.values, v.finite) with h1 | h1
  · rw [if_neg (not_not_intro h1)]
    rcases Classical.em (∃ v ∈ w.values, v.re < 0) with h2 | h2
    · rw [if_pos h2]
      simp only [ne_eq, reduceCtorEq, not_false_eq_true, true_iff]
      exact Or.inr (Or.inl h2)
    · rw [if_neg h2]
      rcases Classical.em (∃ v ∈ w.values, v.im ≠ 0) with h3 | h3
      · rw [if_pos h3]
        simp only [ne_eq, reduceCtorEq, not_false_eq_true, true_iff]
        exact Or.inr (Or.inr (Or.inl h3))
      · rw [if_neg h3]
        rcases Classical.em (∀ v ∈ w.values, v.re = 0 ∧ v.im = 0) with h4 | h4
        · rw [if_pos h4]
          simp only [ne_eq, reduceCtorEq, not_false_eq_true, true_iff]
          exact Or.inr (Or.inr (Or.inr (Or.inl h4)))
        · rw [if_neg h4]
          rcases Classical.em
              ((w.shape.length = 2 ∧ w.shape.getD 1 0 ≠ 1) ∨ w.shape.length > 2) with
            h5 | h5
          · rw [if_pos h5]
            simp only [ne_eq, reduceCtorEq, not_false_eq_true, true_iff]
            rcases h5 with h5 | h5
            · exact Or.inr (Or.inr (Or.inr (Or.inr (Or.inl h5))))
            · exact Or.inr (Or.inr (Or.inr (Or.inr (Or.inr h5))))
          · rw [if_neg h5]
            simp only [ne_eq, not_true_eq_false, false_iff]
            rintro (h | h | h | h | h | h)
            · exact h h1
            · exact h2 h
            · exact h3 h
            · exact h4 h
            · exact h5 (Or.inl h)
            · exact h5 (Or.inr h)
  · rw [if_pos h1]
    simp only [ne_eq, reduceCtorEq, not_false_eq_true, true_iff]
    exact Or.inl h1

theorem validate_weights_error_iff_witness :
    (NpArray.wf ⟨[3], [posScalar (-1), posScalar 2, posScalar 3]⟩) ∧
      (validate_weights ⟨[3], [posScalar (-1), posScalar 2, posScalar 3]⟩ ≠ .ok () ↔
        ((¬ ∀ v ∈ [posScalar (-1), posScalar 2, posScalar 3], v.finite) ∨
          (∃ v ∈ [posScalar (-1), posScalar 2, posScalar 3], v.re < 0) ∨
          (∃ v ∈ [posScalar (-1), posScalar 2, posScalar 3], v.im ≠ 0) ∨
          (∀ v ∈ [posScalar (-1), posScalar 2, posScalar 3], v.re = 0 ∧ v.im = 0) ∨
          (([3] : List Nat).length = 2 ∧ ([3] : List Nat).getD 1 0 ≠ 1) ∨
          ([3] : List Nat).length > 2)) :=
  ⟨by decide, validate_weights_error_iff ⟨[3], [posScalar (-1), posScalar 2, posScalar 3]⟩
    (by decide)⟩

/-! ## Block index validation

Embeds `validate_block_indices` from `src/ts_bs/utils/validate.py` (lines
172-227).  A numpy index array is modelled by its dimensionality, whether its
dtype is an integer kind, and the flat list of its (signed) entries. -/

/-- A numpy index array: `ndim`, whether the dtype is an integer kind
(`np.issubdtype(dtype, np.integer)`), and its entries as signed integers. -/
structure IdxArray where
  ndim : Nat
  intDtype : Bool
  values : List Int
  deriving DecidableEq

/-- Embedding of `validate_block_indices` (`src/ts_bs/utils/validate.py`),
checks in source order: empty list, every block a 1-D integer array, every
block with at least one index, and `np.all(block < input_length)` for every
block.  Note the source compares only against the upper bound
`input_length`; it never checks `block >= 0`. -/
def validate_block_indices (blocks : List IdxArray) (inputLength : Int) :
    Except String Unit :=
  if blocks.length = 0 then
    .error "must not be empty"
  else if ¬ ∀ b ∈ blocks, b.ndim = 1 ∧ b.intDtype then
    .error "must be a list of 1D NumPy arrays with integer values"
  else if ¬ ∀ b ∈ blocks, b.values.length > 0 then
    .error "must have at least one index"
  else if ¬ ∀ b ∈ blocks, ∀ i ∈ b.values, i < inputLength then
    .error "indices within the range of X"
  else
    .ok ()

example : validate_block_indices [] 5 ≠ .ok () := by decide

example : validate_block_indices [⟨1, true, [0, 7]⟩] 5 ≠ .ok () := by decide

/-- C5 counterexample: a 1-D integer block containing the index `-1`, which is
outside the valid range `0 ≤ idx < 5`, passes `validate_block_indices` for
`input_length = 5` without raising: the source only checks indices against the
upper bound. -/
theorem validate_block_indices_accepts_negative :
    validate_block_indices [⟨1, true, [-1]⟩] 5 = .ok () ∧
      ∃ b ∈ [(⟨1, true, [-1]⟩ : IdxArray)], ∃ i ∈ b.values, ¬ (0 ≤ i ∧ i < 5) := by
  decide

/-- C5 (amended): `validate_block_indices` raises exactly for an empty list of
blocks, a block that is not a 1-D integer index array, a block with no
indices, or a block containing an index `≥ N`; indices below `0` are not
rejected. -/
theorem validate_block_indices_error_iff (blocks : List IdxArray) (N : Int) :
    validate_block_indices blocks N ≠ .ok () ↔
      (blocks = [] ∨
        (∃ b ∈ blocks, ¬ (b.ndim = 1 ∧ b.intDtype)) ∨
        (∃ b ∈ blocks, b.values = []) ∨
        ∃ b ∈ blocks, ∃ i ∈ b.values, N ≤ i) := by
  unfold validate_block_indices
  rcases Classical.em (blocks.length = 0) with h1 | h1
  · rw [if_pos h1]
    simp only [ne_eq, reduceCtorEq, not_false_eq_true, true_iff]
    exact Or.inl (List.length_eq_zero.mp h1)
  · rw [if_neg h1]
    rcases Classical.em (∀ b ∈ blocks, b.ndim = 1 ∧ b.intDtype) with h2 | h2
    · rw [if_neg (not_not_intro h2)]
      rcases Classical.em (∀ b ∈ blocks, b.values.length > 0) with h3 | h3
      · rw [if_neg (not_not_intro h3)]
        rcases Classical.em (∀ b ∈ blocks, ∀ i ∈ b.values, i < N) with h4 | h4
        · rw [if_neg (not_not_intro h4)]
          simp only [ne_eq, not_true_eq_false, false_iff]
          rintro (h | ⟨b, hb, hn⟩ | ⟨b, hb, hz⟩ | ⟨b, hb, i, hi, hge⟩)
          · exact h1 (by simp [h])
          · exact hn (h2 b hb)
          · have := h3 b hb
            rw [hz] at this
            simp at this
          · exact absurd (h4 b hb i hi) (not_lt.mpr hge)
        · rw [if_pos h4]
          simp only [ne_eq, reduceCtorEq, not_false_eq_true, true_iff]
          right; right; right
          simpa only [not_forall, Classical.not_imp, not_lt, exists_prop] using h4
      · rw [if_pos h3]
        simp only [ne_eq, reduceCtorEq, not_false_eq_true, true_iff]
        right; right; left
        simpa only [not_forall, Classical.not_imp, not_lt, Nat.le_zero,
          List.length_eq_zero, exists_prop] using h3
    · rw [if_pos h2]
      simp only [ne_eq, reduceCtorEq, not_false_eq_true, true_iff]
      right; left
      simpa only [not_forall, Classical.not_imp, exists_prop] using h2

/-! ## Bootstrap orchestration

Embeds `BaseTimeSeriesBootstrap` / `BlockBootstrap` from `src/bootstrap.py`:
the `n_bootstraps` setter, `_check_input`, `split`, `_generate_samples` and
`_generate_samples_single_bootstrap` with its caching of the block partition
and the resampler object. -/

/-- Configuration of a `BlockBootstrap` instance (the fields of
`src/bootstrap.py` relevant to the verified claims). -/
structure BBConfig where
  n_bootstraps : Nat
  block_length : Option Nat
  min_block_length : Nat
  combine_generation_and_sampling_flag : Bool
  deriving DecidableEq

/-- A Python value passed to the `n_bootstraps` setter: an integer or any
non-`Integral` object. -/
inductive PyNum where
  | int : Int → PyNum
  | other : PyNum
  deriving DecidableEq

/-- Embedding of the `n_bootstraps` setter (`src/bootstrap.py`, lines 67-75):
`TypeError` for a non-`Integral` value, `ValueError` unless the value is
greater than zero, otherwise the value is stored. -/
def n_bootstraps_setter : PyNum → Except String Int
  | .other => .error "The number of bootstrap iterations must be an integer."
  | .int i =>
    if ¬ i > 0 then .error "The number of bootstrap iterations must be greater than 0."
    else .ok i

/-- Embedding of the base `_check_input` condition
`np.any(np.diff([len(x) for x in X]) != 0)`: consecutive rows of `X` all have
the same length. -/
def same_lengths : List (List ℚ) → Bool
  | [] => true
  | [_] => true
  | a :: b :: rest => a.length == b.length && same_lengths (b :: rest)

/-- Embedding of `BlockBootstrap._check_input` (`src/bootstrap.py`, lines
255-259): the base check that all time series (rows) have the same length,
then the error when a configured `block_length` exceeds the number of rows of
`X`. -/
def check_input (cfg : BBConfig) (X : List (List ℚ)) : Except String Unit :=
  if ¬ same_lengths X then
    .error "All time series must be of the same length."
  else
    match cfg.block_length with
    | some b =>
      if X.length < b then
        .error "block_length cannot be greater than the size of the input array X."
      else .ok ()
    | none => .ok ()

/-- Modelled from the spec: `time_series_split` lives in
`utils/odds_and_ends.py`, which is absent from the provided sources, and the
spec's sections do not describe it; its convention is pinned by the
repository's own test (`test_all_bootstraps.py`, lines 53-58), which expects
every bootstrap sample produced with the default `test_ratio = 0.2` to have
`floor(0.2 * n)` rows: the training split returned first is the initial
`floor(n * ratio)` rows and the test split the remainder.  The ratio is a
fraction `num / den`. -/
def time_series_split (X : List (List ℚ)) (num den : Nat) :
    List (List ℚ) × List (List ℚ) :=
  (X.take (X.length * num / den), X.drop (X.length * num / den))

/-- The cached `BlockResampler` object: it holds the block partition and the
source array it was constructed with. -/
structure BlockResamplerObj where
  blocks : List (List Nat)
  x : List (List ℚ)
  deriving DecidableEq

/-- The mutable per-instance state of a `BlockBootstrap`
(`self.blocks` and `self.block_resampler`, both initialised to `None`). -/
structure BBState where
  blocks : Option (List (List Nat))
  block_resampler : Option BlockResamplerObj
  deriving DecidableEq

/-- Embedding of `BlockBootstrap._generate_blocks` (`src/bootstrap.py`, lines
261-288): builds the sampler and generator and produces a block partition for
`X`, consuming one stream draw per emitted block.  Returns the blocks and the
advanced stream position. -/
def generate_blocks_method (cfg : BBConfig) (X : List (List ℚ))
    (stream : Nat → Nat) (pos : Nat) : List (List Nat) × Nat :=
  let bs := generateBlocksAux stream cfg.min_block_length X.length X.length 0 pos
  (bs, pos + bs.length)

/-- The resampling draw loop starting at stream position `pos`, consuming one
draw per selected block (see `resampleAux`).  Returns the index and data
arrays and the advanced stream position. -/
def resample_from (blocks : List (List Nat)) (X : List (List ℚ))
    (stream : Nat → Nat) (taper : Nat → ℚ) (pos : Nat) :
    (List (List Nat) × List (List (List ℚ))) × Nat :=
  let p := resampleAux blocks X stream taper X.length X.length pos
  (p, pos + p.1.length)

/-- Embedding of `BlockBootstrap._generate_samples_single_bootstrap`
(`src/bootstrap.py`, lines 290-325): when
`combine_generation_and_sampling_flag` is set or no partition is cached yet,
generate blocks and build a fresh resampler; otherwise reuse the cached
partition and resampler.  Resample, then store partition and resampler on the
instance unless the combine flag is set. -/
def single_bootstrap (cfg : BBConfig) (X : List (List ℚ)) (stream : Nat → Nat)
    (taper : Nat → ℚ) (st : BBState) (pos : Nat) :
    (List (List Nat) × List (List (List ℚ))) × BBState × Nat :=
  let fresh := cfg.combine_generation_and_sampling_flag || st.blocks.isNone
  let gen :=
    if fresh then
      let g := generate_blocks_method cfg X stream pos
      (g.1, BlockResamplerObj.mk g.1 X, g.2)
    else
      (st.blocks.getD [], st.block_resampler.getD ⟨[], []⟩, pos)
  let r := resample_from gen.2.1.blocks gen.2.1.x stream taper gen.2.2
  let st' :=
    if cfg.combine_generation_and_sampling_flag then st
    else ⟨some gen.1, some gen.2.1⟩
  (r.1, st', r.2)

/-- One yielded bootstrap sample: the list of index arrays and the
concatenated data (`np.concatenate(data, axis=0)`). -/
structure BootSample where
  indices : List (List Nat)
  data : List (List ℚ)
  deriving DecidableEq

/-- Embedding of `BaseTimeSeriesBootstrap._generate_samples`
(`src/bootstrap.py`, lines 101-121): loop `n_bootstraps` times, each iteration
drawing one bootstrap sample and concatenating its data blocks. -/
def generate_samples (cfg : BBConfig) (X : List (List ℚ)) (stream : Nat → Nat)
    (taper : Nat → ℚ) : Nat → BBState → Nat → List BootSample × BBState × Nat
  | 0, st, pos => ([], st, pos)
  | k + 1, st, pos =>
    let s := single_bootstrap cfg X stream taper st pos
    let rest := generate_samples cfg X stream taper k s.2.1 s.2.2
    (⟨s.1.1, s.1.2.flatten⟩ :: rest.1, rest.2.1, rest.2.2)

/-- Embedding of `BaseTimeSeriesBootstrap.split` (`src/bootstrap.py`, lines
77-99) for a fresh instance: validate the input, split it with
`test_ratio = 0.2`, and generate `n_bootstraps` samples from the training
split only.  The returned position tracks the stream draws consumed; on a
validation error the position is unchanged. -/
def split_method (cfg : BBConfig) (X : List (List ℚ)) (stream : Nat → Nat)
    (taper : Nat → ℚ) (pos : Nat) : Except String (List BootSample) × Nat :=
  match check_input cfg X with
  | .error e => (.error e, pos)
  | .ok () =>
    let xtr := (time_series_split X 1 5).1
    let r := generate_samples cfg xtr stream taper cfg.n_bootstraps ⟨none, none⟩ pos
    (.ok r.1, r.2.2)

/-! ## Properties of the pipeline -/

lemma resampleAux_zero_needed (blocks : List (List Nat)) (X : List (List ℚ))
    (choices : Nat → Nat) (taper : Nat → ℚ) (fuel i : Nat) :
    resampleAux blocks X choices taper fuel 0 i = ([], []) := by
  cases fuel <;> simp [resampleAux]

lemma generateBlocksAux_nonempty (lengths : Nat → Nat) (minBlockLength N : Nat) :
    ∀ fuel cursor i, ∀ b ∈ generateBlocksAux lengths minBlockLength N fuel cursor i,
      b ≠ [] := by
  intro fuel
  induction fuel with
  | zero => intro cursor i b hb; simp [generateBlocksAux] at hb
  | succ fuel ih =>
    intro cursor i b hb
    by_cases hc : cursor < N
    · simp only [generateBlocksAux, if_pos hc, List.mem_cons] at hb
      rcases hb with rfl | hb
      · have := stepLen_pos minBlockLength N cursor (lengths i) hc
        simp only [ne_eq, List.range'_eq_nil]
        omega
      · exact ih _ _ b hb
    · simp [generateBlocksAux, if_neg hc] at hb

/-- Structural facts about a block partition of `X` that the resampler relies
on: every block non-empty, every index in range, and (for a non-empty series)
at least one block. -/
def GoodBlocks (X : List (List ℚ)) (bs : List (List Nat)) : Prop :=
  (∀ b ∈ bs, b ≠ []) ∧ (∀ b ∈ bs, ∀ i ∈ b, i < X.length) ∧ (1 ≤ X.length → bs ≠ [])

lemma generate_blocks_method_good (cfg : BBConfig) (X : List (List ℚ))
    (stream : Nat → Nat) (pos : Nat) :
    GoodBlocks X (generate_blocks_method cfg X stream pos).1 := by
  refine ⟨?_, ?_, ?_⟩
  · intro b hb
    exact generateBlocksAux_nonempty stream cfg.min_block_length X.length
      X.length 0 pos b hb
  · intro b hb i hi
    have hfl := generateBlocksAux_flatten stream cfg.min_block_length X.length
      X.length 0 pos (by omega)
    have : i ∈ (generateBlocksAux stream cfg.min_block_length X.length
        X.length 0 pos).flatten := List.mem_flatten.mpr ⟨b, hb, hi⟩
    rw [hfl] at this
    have := List.mem_range'_1.mp this
    omega
  · intro h1
    unfold generate_blocks_method
    obtain ⟨m, hm⟩ : ∃ m, X.length = m + 1 := ⟨X.length - 1, by omega⟩
    rw [hm]
    simp [generateBlocksAux]

lemma resample_from_rows (bs : List (List Nat)) (X : List (List ℚ))
    (stream : Nat → Nat) (taper : Nat → ℚ) (pos : Nat) (hg : GoodBlocks X bs) :
    ((resample_from bs X stream taper pos).1.2.flatten).length = X.length := by
  rcases Nat.eq_zero_or_pos X.length with h0 | h1
  · simp [resample_from, h0, resampleAux_zero_needed]
  · have hne : bs ≠ [] := hg.2.2 h1
    unfold resample_from
    dsimp only
    rw [List.length_flatten, resampleAux_data_lengths]
    exact resampleAux_index_length_sum bs X stream taper hne hg.1
      X.length X.length pos (le_refl _)

/-- The reachable states of a `BlockBootstrap` instance: either nothing is
cached yet, or a partition together with its resampler, built for `X`, is. -/
def ValidState (X : List (List ℚ)) (st : BBState) : Prop :=
  st = ⟨none, none⟩ ∨
    ∃ bs, st = ⟨some bs, some ⟨bs, X⟩⟩ ∧ GoodBlocks X bs

/-- Reduction of `single_bootstrap` when the generation branch is taken
(combine flag set, or nothing cached yet). -/
lemma single_bootstrap_fresh (cfg : BBConfig) (X : List (List ℚ))
    (stream : Nat → Nat) (taper : Nat → ℚ) (st : BBState) (pos : Nat)
    (h : (cfg.combine_generation_and_sampling_flag || st.blocks.isNone) = true) :
    single_bootstrap cfg X stream taper st pos =
      ((resample_from (generate_blocks_method cfg X stream pos).1 X stream taper
          (generate_blocks_method cfg X stream pos).2).1,
        (if cfg.combine_generation_and_sampling_flag then st
          else ⟨some (generate_blocks_method cfg X stream pos).1,
            some ⟨(generate_blocks_method cfg X stream pos).1, X⟩⟩),
        (resample_from (generate_blocks_method cfg X stream pos).1 X stream taper
          (generate_blocks_method cfg X stream pos).2).2) := by
  simp only [single_bootstrap, h]
  rfl

/-- Reduction of `single_bootstrap` when the cached partition and resampler
are reused (combine flag unset, partition cached). -/
lemma single_bootstrap_cached (cfg : BBConfig) (X : List (List ℚ))
    (stream : Nat → Nat) (taper : Nat → ℚ) (bs : List (List Nat))
    (r : BlockResamplerObj) (pos : Nat)
    (h : cfg.combine_generation_and_sampling_flag = false) :
    single_bootstrap cfg X stream taper ⟨some bs, some r⟩ pos =
      ((resample_from r.blocks r.x stream taper pos).1,
        ⟨some bs, some r⟩,
        (resample_from r.blocks r.x stream taper pos).2) := by
  simp only [single_bootstrap, h, Option.isNone_some, Bool.or_self, Bool.false_eq_true,
    if_false, Option.getD_some]

lemma single_bootstrap_rows_and_state (cfg : BBConfig) (X : List (List ℚ))
    (stream : Nat → Nat) (taper : Nat → ℚ) (st : BBState) (pos : Nat)
    (hst : ValidState X st) :
    (single_bootstrap cfg X stream taper st pos).1.2.flatten.length = X.length ∧
      ValidState X (single_bootstrap cfg X stream taper st pos).2.1 := by
  rcases hst with rfl | ⟨bs, rfl, hbs⟩
  · -- nothing cached: the fresh branch is taken
    rw [single_bootstrap_fresh cfg X stream taper ⟨none, none⟩ pos (by simp)]
    constructor
    · exact resample_from_rows _ X stream taper _
        (generate_blocks_method_good cfg X stream pos)
    · dsimp only
      by_cases hflag : cfg.combine_generation_and_sampling_flag = true
      · rw [if_pos hflag]
        exact Or.inl rfl
      · rw [if_neg hflag]
        exact Or.inr ⟨_, rfl, generate_blocks_method_good cfg X stream pos⟩
  · -- a partition and resampler for X are cached
    by_cases hflag : cfg.combine_generation_and_sampling_flag = true
    · rw [single_bootstrap_fresh cfg X stream taper _ pos (by simp [hflag])]
      constructor
      · exact resample_from_rows _ X stream taper _
          (generate_blocks_method_good cfg X stream pos)
      · dsimp only
        rw [if_pos hflag]
        exact Or.inr ⟨bs, rfl, hbs⟩
    · have hflag' : cfg.combine_generation_and_sampling_flag = false := by
        simpa using hflag
      rw [single_bootstrap_cached cfg X stream taper bs ⟨bs, X⟩ pos hflag']
      exact ⟨resample_from_rows bs X stream taper pos hbs, Or.inr ⟨bs, rfl, hbs⟩⟩

lemma generate_samples_rows (cfg : BBConfig) (X : List (List ℚ))
    (stream : Nat → Nat) (taper : Nat → ℚ) :
    ∀ k st pos, ValidState X st →
      ∀ s ∈ (generate_samples cfg X stream taper k st pos).1,
        s.data.length = X.length := by
  intro k
  induction k with
  | zero => intro st pos _ s hs; simp [generate_samples] at hs
  | succ k ih =>
    intro st pos hst s hs
    have h1 := single_bootstrap_rows_and_state cfg X stream taper st pos hst
    simp only [generate_samples, List.mem_cons] at hs
    rcases hs with rfl | hs
    · exact h1.1
    · exact ih _ _ h1.2 s hs

lemma generate_samples_count (cfg : BBConfig) (X : List (List ℚ))
    (stream : Nat → Nat) (taper : Nat → ℚ) :
    ∀ k st pos, (generate_samples cfg X stream taper k st pos).1.length = k := by
  intro k
  induction k with
  | zero => intro st pos; rfl
  | succ k ih => intro st pos; simp [generate_samples, ih]

/-- C7: if the configured average block length exceeds the number of rows `N`
of the input array, `split` raises before any block sampling occurs: the error
is returned and the stream position is unchanged, so no random draw is
consumed. -/
theorem block_length_exceeding_input_raises (cfg : BBConfig) (X : List (List ℚ))
    (stream : Nat → Nat) (taper : Nat → ℚ) (pos : Nat) (b : Nat)
    (hrows : same_lengths X = true)
    (hb : cfg.block_length = some b) (hgt : X.length < b) :
    split_method cfg X stream taper pos =
      (.error "block_length cannot be greater than the size of the input array X.",
        pos) := by
  unfold split_method check_input
  rw [hb, if_neg (not_not_intro hrows)]
  dsimp only
  rw [if_pos hgt]

theorem block_length_exceeding_input_raises_witness :
    (same_lengths ([[1], [2]] : List (List ℚ)) = true ∧
        (BBConfig.mk 1 (some 5) 1 false).block_length = some 5 ∧
        ([[1], [2]] : List (List ℚ)).length < 5) ∧
      split_method ⟨1, some 5, 1, false⟩ [[1], [2]] (fun _ => 0) (fun _ => 1) 3 =
        (.error "block_length cannot be greater than the size of the input array X.",
          3) :=
  ⟨⟨by decide, rfl, by decide⟩,
    block_length_exceeding_input_raises ⟨1, some 5, 1, false⟩ [[1], [2]]
      (fun _ => 0) (fun _ => 1) 3 5 (by decide) rfl (by decide)⟩

/-- C8: with `combine_generation_and_sampling_flag = False`, the first draw of
a fresh instance computes the partition and the resampler and stores both; the
second draw resamples exactly the stored partition without regenerating it and
leaves the stored state unchanged.  With the flag `True`, every draw
regenerates the partition and resampler from the current stream position and
nothing is ever stored. -/
theorem partition_and_resampler_caching (cfg₀ : BBConfig) (X : List (List ℚ))
    (stream : Nat → Nat) (taper : Nat → ℚ) (pos : Nat) :
    (let cfg : BBConfig :=
      { cfg₀ with combine_generation_and_sampling_flag := false }
     let first := single_bootstrap cfg X stream taper ⟨none, none⟩ pos
     let second := single_bootstrap cfg X stream taper first.2.1 first.2.2
     first.2.1.blocks = some (generate_blocks_method cfg X stream pos).1 ∧
       first.2.1.block_resampler =
         some ⟨(generate_blocks_method cfg X stream pos).1, X⟩ ∧
       second.1 = (resample_from (generate_blocks_method cfg X stream pos).1 X
         stream taper first.2.2).1 ∧
       second.2.1 = first.2.1) ∧
    (let cfg : BBConfig :=
      { cfg₀ with combine_generation_and_sampling_flag := true }
     ∀ st pos',
       (single_bootstrap cfg X stream taper st pos').1 =
           (resample_from (generate_blocks_method cfg X stream pos').1 X stream
             taper (generate_blocks_method cfg X stream pos').2).1 ∧
         (single_bootstrap cfg X stream taper st pos').2.1 = st) :=
  ⟨⟨rfl, rfl, rfl, rfl⟩, fun _ _ => ⟨rfl, rfl⟩⟩

/-- Extracts the yielded samples from a `split_method` result (empty on
error). -/
def okSamples (r : Except String (List BootSample) × Nat) : List BootSample :=
  match r.1 with
  | .ok s => s
  | .error _ => []

/-- C9 counterexample: for an input with 10 rows, `split` succeeds and the
yielded bootstrap sample has 2 rows — the row count of the training split
actually produced by `time_series_split` with `test_ratio = 0.2`, namely the
first `floor(10 * 0.2) = 2` rows — and not the 8 rows that "the first 80% of
rows" of the claim would have. -/
theorem split_sample_rows_not_80_percent :
    (split_method ⟨1, none, 1, false⟩
        [[10], [11], [12], [13], [14], [15], [16], [17], [18], [19]]
        (fun _ => 0) (fun _ => 1) 0).1 =
      .ok (okSamples (split_method ⟨1, none, 1, false⟩
        [[10], [11], [12], [13], [14], [15], [16], [17], [18], [19]]
        (fun _ => 0) (fun _ => 1) 0)) ∧
      (okSamples (split_method ⟨1, none, 1, false⟩
          [[10], [11], [12], [13], [14], [15], [16], [17], [18], [19]]
          (fun _ => 0) (fun _ => 1) 0)).map (fun s => s.data.length) = [2] ∧
      (time_series_split
        [[10], [11], [12], [13], [14], [15], [16], [17], [18], [19]] 1 5).1 =
        [[10], [11]] ∧
      (10 - 10 * 1 / 5 : Nat) = 8 ∧
      (2 : Nat) ≠ 8 :=
  ⟨rfl, by decide, by decide, by decide, by decide⟩

/-- C9 (amended): `split` splits the input with `test_ratio = 0.2` and
bootstraps only the training split — which, under the repository's
`time_series_split` convention, is the first `floor(0.2 * n)` rows — so every
yielded bootstrap sample has the training-split row count rather than `n`
rows. -/
theorem split_samples_have_training_rows (cfg : BBConfig) (X : List (List ℚ))
    (stream : Nat → Nat) (taper : Nat → ℚ) (pos pos' : Nat)
    (samples : List BootSample)
    (h : split_method cfg X stream taper pos = (.ok samples, pos')) :
    ∀ s ∈ samples, s.data.length = ((time_series_split X 1 5).1).length := by
  unfold split_method at h
  cases hchk : check_input cfg X with
  | error e =>
    rw [hchk] at h
    simp at h
  | ok u =>
    cases u
    rw [hchk] at h
    have hs : samples =
        (generate_samples cfg ((time_series_split X 1 5).1) stream taper
          cfg.n_bootstraps ⟨none, none⟩ pos).1 := by
      have := congrArg Prod.fst h
      simpa using this.symm
    rw [hs]
    exact generate_samples_rows cfg _ stream taper cfg.n_bootstraps _ pos (Or.inl rfl)

theorem split_samples_have_training_rows_witness :
    split_method ⟨1, none, 1, false⟩ [[1], [2], [3], [4], [5]]
        (fun _ => 0) (fun _ => 1) 0 =
      (.ok (okSamples (split_method ⟨1, none, 1, false⟩ [[1], [2], [3], [4], [5]]
          (fun _ => 0) (fun _ => 1) 0)),
        (split_method ⟨1, none, 1, false⟩ [[1], [2], [3], [4], [5]]
          (fun _ => 0) (fun _ => 1) 0).2) ∧
      ∀ s ∈ okSamples (split_method ⟨1, none, 1, false⟩ [[1], [2], [3], [4], [5]]
          (fun _ => 0) (fun _ => 1) 0),
        s.data.length =
          ((time_series_split [[1], [2], [3], [4], [5]] 1 5).1).length :=
  ⟨rfl,
    split_samples_have_training_rows ⟨1, none, 1, false⟩ [[1], [2], [3], [4], [5]]
      (fun _ => 0) (fun _ => 1) 0
      (split_method ⟨1, none, 1, false⟩ [[1], [2], [3], [4], [5]]
        (fun _ => 0) (fun _ => 1) 0).2
      (okSamples (split_method ⟨1, none, 1, false⟩ [[1], [2], [3], [4], [5]]
        (fun _ => 0) (fun _ => 1) 0)) rfl⟩

/-- C10: the `n_bootstraps` setter accepts exactly the positive integers
(`TypeError` for a non-integer, `ValueError` otherwise), and for an instance
with `n_bootstraps = k` both `_generate_samples` and `split` yield exactly `k`
bootstrap samples. -/
theorem n_bootstraps_yields_exactly_k (cfg : BBConfig) (X : List (List ℚ))
    (stream : Nat → Nat) (taper : Nat → ℚ) :
    (∀ i : Int, n_bootstraps_setter (.int i) = .ok i ↔ 0 < i) ∧
      n_bootstraps_setter .other =
        .error "The number of bootstrap iterations must be an integer." ∧
      (∀ st pos,
        (generate_samples cfg X stream taper cfg.n_bootstraps st pos).1.length =
          cfg.n_bootstraps) ∧
      ∀ pos pos' samples,
        split_method cfg X stream taper pos = (.ok samples, pos') →
          samples.length = cfg.n_bootstraps := by
  refine ⟨?_, rfl, ?_, ?_⟩
  · intro i
    simp only [n_bootstraps_setter]
    rcases Classical.em (i > 0) with h | h
    · rw [if_neg (not_not_intro h)]
      exact iff_of_true rfl h
    · rw [if_pos h]
      exact iff_of_false (by simp) h
  · intro st pos
    exact generate_samples_count cfg X stream taper cfg.n_bootstraps st pos
  · intro pos pos' samples h
    unfold split_method at h
    cases hchk : check_input cfg X with
    | error e =>
      rw [hchk] at h
      simp at h
    | ok u =>
      cases u
      rw [hchk] at h
      have hs : samples =
          (generate_samples cfg ((time_series_split X 1 5).1) stream taper
            cfg.n_bootstraps ⟨none, none⟩ pos).1 := by
        have := congrArg Prod.fst h
        simpa using this.symm
      rw [hs]
      exact generate_samples_count cfg _ stream taper cfg.n_bootstraps _ pos

theorem n_bootstraps_yields_exactly_k_witness :
    split_method ⟨2, some 1, 1, true⟩ [[1], [2], [3], [4], [5]]
        (fun _ => 0) (fun _ => 1) 0 =
      (.ok (okSamples (split_method ⟨2, some 1, 1, true⟩ [[1], [2], [3], [4], [5]]
          (fun _ => 0) (fun _ => 1) 0)),
        (split_method ⟨2, some 1, 1, true⟩ [[1], [2], [3], [4], [5]]
          (fun _ => 0) (fun _ => 1) 0).2) ∧
      (okSamples (split_method ⟨2, some 1, 1, true⟩ [[1], [2], [3], [4], [5]]
          (fun _ => 0) (fun _ => 1) 0)).length =
        (BBConfig.mk 2 (some 1) 1 true).n_bootstraps :=
  ⟨rfl,
    (n_bootstraps_yields_exactly_k ⟨2, some 1, 1, true⟩ [[1], [2], [3], [4], [5]]
      (fun _ => 0) (fun _ => 1)).2.2.2 0
      (split_method ⟨2, some 1, 1, true⟩ [[1], [2], [3], [4], [5]]
        (fun _ => 0) (fun _ => 1) 0).2
      (okSamples (split_method ⟨2, some 1, 1, true⟩ [[1], [2], [3], [4], [5]]
        (fun _ => 0) (fun _ => 1) 0)) rfl⟩

/-! ## Determinism of the engine -/

/-- Modelled from the spec: the seedable pseudo-random stream owned by the
orchestrator ("a single seedable pseudo-random generator ...; determinism is
entirely a function of the stream's state at call time").  The generator is
abstracted as a pure function of the seed and the draw index (a linear
congruential map modulo `2^32`). -/
def mkStream (seed : Nat) : Nat → Nat :=
  fun i => (1664525 * (seed + i) + 1013904223) % 4294967296

/-- An engine instance: its configuration, source array, tapering weights and
seed. -/
structure EngineInstance where
  config : BBConfig
  x : List (List ℚ)
  taper : Nat → ℚ
  seed : Nat

/-- Modelled from the spec: one engine run — `generate_blocks` followed by
`resample_block_indices_and_data` — with the stream derived from the
instance's seed, returning the block partition and the resampled output. -/
def run_engine (e : EngineInstance) :
    List (List Nat) × (List (List Nat) × List (List (List ℚ))) :=
  let stream := mkStream e.seed
  let g := generate_blocks_method e.config e.x stream 0
  (g.1, (resample_from g.1 e.x stream e.taper g.2).1)

/-- C6: two engine instances with the same seed and the same configuration
(including source array and tapering weights) produce identical block
partitions and identical resampled output. -/
theorem engine_determinism (e₁ e₂ : EngineInstance)
    (hcfg : e₁.config = e₂.config) (hx : e₁.x = e₂.x)
    (htaper : e₁.taper = e₂.taper) (hseed : e₁.seed = e₂.seed) :
    run_engine e₁ = run_engine e₂ := by
  cases e₁
  cases e₂
  cases hcfg
  cases hx
  cases htaper
  cases hseed
  rfl

theorem engine_determinism_witness :
    ((EngineInstance.mk ⟨1, some 1, 1, false⟩ [[1]] (fun _ => 1) 7).config =
        (EngineInstance.mk ⟨1, some 1, 1, false⟩ [[1]] (fun _ => 1) 7).config ∧
      (EngineInstance.mk ⟨1, some 1, 1, false⟩ [[1]] (fun _ => 1) 7).x =
        (EngineInstance.mk ⟨1, some 1, 1, false⟩ [[1]] (fun _ => 1) 7).x ∧
      (EngineInstance.mk ⟨1, some 1, 1, false⟩ [[1]] (fun _ => 1) 7).taper =
        (EngineInstance.mk ⟨1, some 1, 1, false⟩ [[1]] (fun _ => 1) 7).taper ∧
      (EngineInstance.mk ⟨1, some 1, 1, false⟩ [[1]] (fun _ => 1) 7).seed =
        (EngineInstance.mk ⟨1, some 1, 1, false⟩ [[1]] (fun _ => 1) 7).seed) ∧
    run_engine (EngineInstance.mk ⟨1, some 1, 1, false⟩ [[1]] (fun _ => 1) 7) =
      run_engine (EngineInstance.mk ⟨1, some 1, 1, false⟩ [[1]] (fun _ => 1) 7) :=
  ⟨⟨rfl, rfl, rfl, rfl⟩,
    engine_determinism (EngineInstance.mk ⟨1, some 1, 1, false⟩ [[1]] (fun _ => 1) 7)
      (EngineInstance.mk ⟨1, some 1, 1, false⟩ [[1]] (fun _ => 1) 7) rfl rfl rfl rfl⟩

end TsBs
